import Mathlib

/-!
Shallow embedding of `machine.go` from the headscale coordination server.

Modelling conventions:
* Go `time.Time` is modelled as `Int` (an instant on a linear timeline);
  the zero value of `time.Time` is modelled as `0`, `t.Before u` as `t < u`,
  `t.After u` as `u < t`, and `t.IsZero` as `t = 0`.
* Go `*time.Time` fields are `Option Int`; dereferencing a `nil` pointer is a
  run-time panic, modelled by the enclosing operation returning `none`.
* The `datatypes.JSON` blob fields (`HostInfo`, `Endpoints`, `EnabledRoutes`)
  are modelled by `Blob α`: an empty blob (`len == 0`, which the code decodes
  to the zero value), a well-formed blob holding a decoded value, or a
  malformed blob whose decode (or the subsequent per-element parse) fails.
* External collaborators (the gorm store, `netaddr.ParseIPPrefix`,
  `wgkey.ParseHex`, `ListMachinesInNamespace`, `RequestMapUpdates`,
  `getLastStateChange`) are passed in as explicit data: the store is a list
  of rows, the parsers are function parameters, and the collaborator call
  results are `Except`/function parameters, so that every control path of
  `machine.go` is represented explicitly.
* `netaddr.IPPrefix` is modelled by the structure `Cidr` (the name `IPPrefix`
  itself is avoided for tooling reasons); it is an opaque value produced by
  the parse-function parameter, compared by equality exactly as the code does.
-/

/-- Models `netaddr.IPPrefix`: an address together with a mask length. -/
structure Cidr where
  addr : Nat
  bits : Nat
deriving DecidableEq, Repr

/-- A namespace (tenant): isolation boundary owning machines. -/
structure Namespace where
  id : Nat
  name : String
deriving DecidableEq, Repr

/-- Models `tailcfg.NetInfo` as used by `toNode`: only the preferred DERP id. -/
structure NetInfo where
  preferredDERP : Int
deriving DecidableEq, Repr

/-- Models `tailcfg.Hostinfo` as used by `machine.go`: the advertised routable
IPs and the optional network info. The zero value has no net info and an
empty routable-IP list. -/
structure Hostinfo where
  netInfo : Option NetInfo
  routableIPs : List Cidr
deriving DecidableEq, Repr

instance : Inhabited Hostinfo := ⟨⟨none, []⟩⟩

/-- A stored JSON blob of decoded type `α`: empty (length 0, decodes to the
zero value), well-formed (decodes to `a`), or malformed (decode fails). -/
inductive Blob (α : Type) where
  | empty : Blob α
  | ok (a : α) : Blob α
  | bad : Blob α
deriving DecidableEq, Repr

/-- The `Machine` record of `machine.go` (fields the specified operations read). -/
structure Machine where
  id : Nat
  machineKey : String
  nodeKey : String
  discoKey : String
  ipAddress : String
  name : String
  namespaceID : Nat
  nspace : Namespace
  registered : Bool
  lastSeen : Option Int
  lastSuccessfulUpdate : Option Int
  expiry : Option Int
  requestedExpiry : Option Int
  hostInfo : Blob Hostinfo
  endpoints : Blob (List String)
  enabledRoutes : Blob (List Cidr)
  createdAt : Int
deriving DecidableEq, Repr

/-- A `SharedMachine` row: machine `machine` is shared into namespace `nspace`. -/
structure SharedMachine where
  namespaceID : Nat
  nspace : Namespace
  machineID : Nat
  machine : Machine
deriving DecidableEq, Repr

/-- Configured registration-duration policy (`h.cfg`). -/
structure Config where
  maxMachineRegistrationDuration : Int
  defaultMachineRegistrationDuration : Int
deriving DecidableEq, Repr

/-- `isExpired` (machine.go:64): `time.Now().UTC().After(*m.Expiry)`.
Dereferences the `Expiry` pointer unconditionally, so an unset `Expiry`
panics: modelled by `none`. -/
def Machine.isExpired (now : Int) (m : Machine) : Option Bool :=
  match m.expiry with
  | none => none
  | some e => some (decide (e < now))

/-- `updateMachineExpiry` (machine.go:72-97). Returns `none` on a nil-pointer
panic; otherwise `some (m', saved)` where `m'` is the machine after the call
and `saved` records whether `h.db.Save` was executed. -/
def updateMachineExpiry (cfg : Config) (now : Int) (m : Machine) :
    Option (Machine × Bool) :=
  match m.isExpired now with
  | none => none
  | some false => some (m, false)
  | some true =>
    let maxExpiry := now + cfg.maxMachineRegistrationDuration
    let defaultExpiry := now + cfg.defaultMachineRegistrationDuration
    match m.requestedExpiry with
    | none => none
    | some requested =>
      if maxExpiry < requested then
        some ({ m with expiry := some maxExpiry }, true)
      else if requested = 0 then
        some ({ m with expiry := some defaultExpiry }, true)
      else
        some ({ m with expiry := some requested }, true)

/-- A concrete machine used by witnesses: registered, in namespace `ns1`. -/
def sampleMachine : Machine where
  id := 1
  machineKey := "mk1"
  nodeKey := "nk1"
  discoKey := ""
  ipAddress := "ip1"
  name := "alpha"
  namespaceID := 1
  nspace := ⟨1, "ns1"⟩
  registered := true
  lastSeen := none
  lastSuccessfulUpdate := none
  expiry := none
  requestedExpiry := none
  hostInfo := .empty
  endpoints := .empty
  enabledRoutes := .empty
  createdAt := 0

/-- C3: for an expired machine with a set `RequestedExpiry`, the new `Expiry`
is `now + max` when the request exceeds it, `now + default` when the request
is the zero value, and the request verbatim otherwise; and the machine is
persisted. -/
theorem updateMachineExpiry_expired_cases (cfg : Config) (now e requested : Int)
    (m : Machine) (hexp : m.expiry = some e) (hlt : e < now)
    (hreq : m.requestedExpiry = some requested) :
    (now + cfg.maxMachineRegistrationDuration < requested →
      updateMachineExpiry cfg now m =
        some ({ m with expiry := some (now + cfg.maxMachineRegistrationDuration) }, true)) ∧
    (¬ now + cfg.maxMachineRegistrationDuration < requested → requested = 0 →
      updateMachineExpiry cfg now m =
        some ({ m with expiry := some (now + cfg.defaultMachineRegistrationDuration) }, true)) ∧
    (¬ now + cfg.maxMachineRegistrationDuration < requested → requested ≠ 0 →
      updateMachineExpiry cfg now m =
        some ({ m with expiry := some requested }, true)) := by
  have hisExp : m.isExpired now = some true := by
    unfold Machine.isExpired
    rw [hexp]
    simp [hlt]
  refine ⟨fun h1 => ?_, fun h1 h2 => ?_, fun h1 h2 => ?_⟩ <;>
    unfold updateMachineExpiry <;> rw [hisExp, hreq]
  · simp [h1]
  · subst h2
    simp [h1]
  · simp [h1, h2]

/-- Witness for C3 at a concrete expired machine whose request exceeds the cap. -/
theorem updateMachineExpiry_expired_cases_witness :
    updateMachineExpiry ⟨100, 10⟩ 50
        { sampleMachine with expiry := some 40, requestedExpiry := some 300 } =
      some ({ sampleMachine with expiry := some 150, requestedExpiry := some 300 }, true) :=
  (updateMachineExpiry_expired_cases ⟨100, 10⟩ 50 40 300 _ rfl (by decide) rfl).1
    (by decide)

/-- C6: a machine that is not currently expired is left untouched and nothing
is persisted. -/
theorem updateMachineExpiry_not_expired (cfg : Config) (now e : Int)
    (m : Machine) (hexp : m.expiry = some e) (hle : ¬ e < now) :
    updateMachineExpiry cfg now m = some (m, false) := by
  unfold updateMachineExpiry Machine.isExpired
  rw [hexp]
  simp [hle]

/-- Witness for C6 at a concrete still-valid machine. -/
theorem updateMachineExpiry_not_expired_witness :
    updateMachineExpiry ⟨100, 10⟩ 50 { sampleMachine with expiry := some 60 } =
      some ({ sampleMachine with expiry := some 60 }, false) :=
  updateMachineExpiry_not_expired ⟨100, 10⟩ 50 60 _ rfl (by decide)

/-- C10: `isExpired` and `updateMachineExpiry` panic (return `none`) exactly
when they dereference an unset pointer: `isExpired` iff `Expiry` is unset,
and `updateMachineExpiry` iff `Expiry` is unset or the machine is expired
with `RequestedExpiry` unset. -/
theorem expiry_ops_partiality (cfg : Config) (now : Int) (m : Machine) :
    (m.isExpired now = none ↔ m.expiry = none) ∧
    (updateMachineExpiry cfg now m = none ↔
      m.expiry = none ∨
        ∃ e, m.expiry = some e ∧ e < now ∧ m.requestedExpiry = none) := by
  constructor
  · unfold Machine.isExpired
    cases m.expiry <;> simp
  · unfold updateMachineExpiry Machine.isExpired
    cases hexp : m.expiry with
    | none => simp
    | some e =>
      cases hreq : m.requestedExpiry with
      | none =>
        by_cases hlt : e < now
        · simp [hlt]
        · simp [hlt]
      | some r =>
        by_cases hlt : e < now
        · by_cases h1 : now + cfg.maxMachineRegistrationDuration < r
          · simp [hlt, h1]
          · by_cases h2 : r = 0
            · subst h2
              simp [hlt, h1]
            · simp [hlt, h1, h2]
        · simp [hlt]


/-- The comparison used by every `sort.Slice(..., func(i, j) { ID < ID })`
call in `machine.go`, as a non-strict total order on machines. -/
def machineIdLE (a b : Machine) : Prop := a.id ≤ b.id

instance : DecidableRel machineIdLE := fun a b => Nat.decLe a.id b.id

instance : IsTotal Machine machineIdLE := ⟨fun a b => Nat.le_total a.id b.id⟩

instance : IsTrans Machine machineIdLE := ⟨fun _ _ _ => Nat.le_trans⟩

/-- Sorting a machine list ascending by numeric ID, as done by the
`sort.Slice` calls of `machine.go` (lines 113, 141, 175, 219). -/
def sortMachinesByID (l : List Machine) : List Machine :=
  List.insertionSort machineIdLE l

theorem mem_sortMachinesByID {x : Machine} {l : List Machine} :
    x ∈ sortMachinesByID l ↔ x ∈ l :=
  (List.perm_insertionSort machineIdLE l).mem_iff

/-- `getDirectPeers` (machine.go:99-121): every row of the machine table with
the same namespace, a different machine key, and the registered flag set,
sorted by ID. The machine table is passed as the list `db`. -/
def getDirectPeers (db : List Machine) (m : Machine) : List Machine :=
  sortMachinesByID (db.filter (fun x =>
    decide (x.namespaceID = m.namespaceID ∧ x.machineKey ≠ m.machineKey ∧
      x.registered = true)))

/-- `getShared` (machine.go:124-149): the machine of every `SharedMachine`
row whose target namespace is `m`'s namespace, sorted by ID. -/
def getShared (rows : List SharedMachine) (m : Machine) : List Machine :=
  sortMachinesByID
    ((rows.filter (fun row => decide (row.namespaceID = m.namespaceID))).map
      (fun row => row.machine))

/-- `getSharedTo` (machine.go:152-183): for every `SharedMachine` row whose
machine is `m`, the whole roster (`ListMachinesInNamespace`, passed as the
collaborator function `roster`) of the row's namespace, concatenated and
sorted by ID. -/
def getSharedTo (roster : String → List Machine) (rows : List SharedMachine)
    (m : Machine) : List Machine :=
  sortMachinesByID
    ((rows.filter (fun row => decide (row.machineID = m.id))).flatMap
      (fun row => roster row.nspace.name))

/-- `getPeers` (machine.go:185-227): direct peers, then shared, then
shared-to, concatenated and sorted ascending by ID. -/
def getPeers (db : List Machine) (rows : List SharedMachine)
    (roster : String → List Machine) (m : Machine) : List Machine :=
  sortMachinesByID
    (getDirectPeers db m ++ getShared rows m ++ getSharedTo roster rows m)

/-- C1: `getPeers` is sorted ascending by numeric ID and is, as a multiset
(duplicates retained, with `count` made explicit), exactly the concatenation
of the three channels direct ++ shared ++ shared-to, where the direct channel
is precisely the other registered machines of `m`'s namespace, the shared
channel the machines shared into `m`'s namespace, and the shared-to channel
the full rosters of the namespaces `m` is shared into. -/
theorem getPeers_channels (db : List Machine) (rows : List SharedMachine)
    (roster : String → List Machine) (m : Machine) :
    (getPeers db rows roster m).Sorted machineIdLE ∧
    (getPeers db rows roster m).Perm
      (getDirectPeers db m ++ getShared rows m ++ getSharedTo roster rows m) ∧
    (∀ x, List.count x (getPeers db rows roster m) =
      List.count x (getDirectPeers db m) + List.count x (getShared rows m) +
        List.count x (getSharedTo roster rows m)) ∧
    (∀ x, x ∈ getDirectPeers db m ↔
      x ∈ db ∧ x.namespaceID = m.namespaceID ∧ x.machineKey ≠ m.machineKey ∧
        x.registered = true) ∧
    (∀ x, x ∈ getShared rows m ↔
      ∃ row, row ∈ rows ∧ row.namespaceID = m.namespaceID ∧ row.machine = x) ∧
    (∀ x, x ∈ getSharedTo roster rows m ↔
      ∃ row, row ∈ rows ∧ row.machineID = m.id ∧ x ∈ roster row.nspace.name) := by
  refine ⟨?_, ?_, fun x => ?_, fun x => ?_, fun x => ?_, fun x => ?_⟩
  · exact List.sorted_insertionSort machineIdLE _
  · exact List.perm_insertionSort machineIdLE _
  · have h := (List.perm_insertionSort machineIdLE
      (getDirectPeers db m ++ getShared rows m ++ getSharedTo roster rows m)).count_eq x
    rw [List.count_append, List.count_append] at h
    exact h
  · unfold getDirectPeers
    rw [mem_sortMachinesByID]
    simp only [List.mem_filter, decide_eq_true_eq]
  · unfold getShared
    rw [mem_sortMachinesByID]
    simp only [List.mem_map, List.mem_filter, decide_eq_true_eq]
    constructor
    · rintro ⟨row, ⟨hrow, hns⟩, hm⟩
      exact ⟨row, hrow, hns, hm⟩
    · rintro ⟨row, hrow, hns, hm⟩
      exact ⟨row, ⟨hrow, hns⟩, hm⟩
  · unfold getSharedTo
    rw [mem_sortMachinesByID]
    simp only [List.mem_flatMap, List.mem_filter, decide_eq_true_eq]
    constructor
    · rintro ⟨row, ⟨hrow, hid⟩, hm⟩
      exact ⟨row, hrow, hid, hm⟩
    · rintro ⟨row, hrow, hid, hm⟩
      exact ⟨row, ⟨hrow, hid⟩, hm⟩

/-- A second concrete machine: id 2, same namespace as `sampleMachine`. -/
def sampleMachine2 : Machine :=
  { sampleMachine with
      id := 2
      machineKey := "mk2"
      nodeKey := "nk2"
      name := "beta" }

/-- Witness for C1 at a concrete configuration: one direct peer, no shares. -/
theorem getPeers_channels_witness :
    getPeers [sampleMachine2] [] (fun _ => []) sampleMachine =
        [sampleMachine2] ∧
    (sampleMachine2 ∈ getDirectPeers [sampleMachine2] sampleMachine ↔
      sampleMachine2 ∈ [sampleMachine2] ∧
        sampleMachine2.namespaceID = sampleMachine.namespaceID ∧
        sampleMachine2.machineKey ≠ sampleMachine.machineKey ∧
        sampleMachine2.registered = true) := by
  have h := (getPeers_channels [sampleMachine2] [] (fun _ => [])
    sampleMachine).2.2.2.1 sampleMachine2
  exact ⟨by decide, h⟩

/-- Modelled from the spec: `getLastStateChange` is not part of `src/`
(machine.go calls it on line 356; spec section 6 defines the change-event
source as "given a set of tenant names, return the most recent state-changing
timestamp across them"). `lc` gives each tenant's latest change timestamp;
the most recent across the given names is their maximum. -/
def getLastStateChange (lc : String → Int) : List String → Int
  | [] => 0
  | n :: ns => ns.foldl (fun acc nm => max acc (lc nm)) (lc n)

/-- `isOutdated` (machine.go:333-365). `refresh` is the result of the
`UpdateMachine` registry refresh (the refreshed machine, or a store error);
`sharedResult` is the result of `getShared` (whose error is discarded on
line 340, leaving the empty list that `getShared` returns on failure); `lc`
is the per-tenant change-event timestamp consumed via `getLastStateChange`.
Returns `none` for the nil-pointer panic on an unset
`LastSuccessfulUpdate` (lines 360 and 364 dereference it unconditionally). -/
def isOutdated (refresh : Except Unit Machine)
    (sharedResult : Except Unit (List Machine)) (lc : String → Int) :
    Option Bool :=
  match refresh with
  | .error _ => some true
  | .ok m =>
    let sharedMachines := match sharedResult with
      | .error _ => []
      | .ok l => l
    let namespaces :=
      (m.nspace.name :: sharedMachines.map (fun sm => sm.nspace.name)).dedup
    let lastChange := getLastStateChange lc namespaces
    match m.lastSuccessfulUpdate with
    | none => none
    | some t => some (decide (t < lastChange))

theorem lt_foldlMax (lc : String → Int) (t : Int) :
    ∀ (ns : List String) (a : Int),
      (t < ns.foldl (fun acc nm => max acc (lc nm)) a ↔
        t < a ∨ ∃ x ∈ ns, t < lc x) := by
  intro ns
  induction ns with
  | nil => intro a; simp
  | cons n ns ih =>
    intro a
    rw [List.foldl_cons, ih]
    simp only [lt_max_iff, List.mem_cons]
    constructor
    · rintro ((h | h) | ⟨x, hx, hlt⟩)
      · exact Or.inl h
      · exact Or.inr ⟨n, Or.inl rfl, h⟩
      · exact Or.inr ⟨x, Or.inr hx, hlt⟩
    · rintro (h | ⟨x, hx | hx, hlt⟩)
      · exact Or.inl (Or.inl h)
      · exact Or.inl (Or.inr (hx ▸ hlt))
      · exact Or.inr ⟨x, hx, hlt⟩

theorem lt_getLastStateChange_dedup (lc : String → Int) (t : Int)
    (own : String) (names : List String) :
    (t < getLastStateChange lc ((own :: names).dedup) ↔
      t < lc own ∨ ∃ x ∈ names, t < lc x) := by
  have hmem : own ∈ (own :: names).dedup :=
    List.mem_dedup.mpr (List.mem_cons_self own names)
  have hiff : ∀ x, x ∈ (own :: names).dedup ↔ x = own ∨ x ∈ names := by
    intro x
    rw [List.mem_dedup, List.mem_cons]
  cases hd : (own :: names).dedup with
  | nil => rw [hd] at hmem; cases hmem
  | cons y ys =>
    have hfold : getLastStateChange lc (y :: ys) =
        ys.foldl (fun acc nm => max acc (lc nm)) (lc y) := rfl
    rw [hfold, lt_foldlMax]
    constructor
    · rintro (h | ⟨x, hx, hlt⟩)
      · have := (hiff y).mp (hd ▸ List.mem_cons_self y ys)
        rcases this with rfl | hy
        · exact Or.inl h
        · exact Or.inr ⟨y, hy, h⟩
      · have := (hiff x).mp (hd ▸ List.mem_cons_of_mem y hx)
        rcases this with rfl | hxn
        · exact Or.inl hlt
        · exact Or.inr ⟨x, hxn, hlt⟩
    · rintro (h | ⟨x, hx, hlt⟩)
      · have : own ∈ y :: ys := hd ▸ hmem
        rcases List.mem_cons.mp this with rfl | hy
        · exact Or.inl h
        · exact Or.inr ⟨own, hy, h⟩
      · have : x ∈ y :: ys := hd ▸ (hiff x).mpr (Or.inr hx)
        rcases List.mem_cons.mp this with rfl | hy
        · exact Or.inl hlt
        · exact Or.inr ⟨x, hy, hlt⟩

theorem isOutdated_ok_some_iff (m : Machine) (shared : List Machine)
    (lc : String → Int) (t : Int) (ht : m.lastSuccessfulUpdate = some t) :
    (isOutdated (.ok m) (.ok shared) lc = some true ↔
      t < lc m.nspace.name ∨ ∃ sm ∈ shared, t < lc sm.nspace.name) := by
  simp only [isOutdated, ht, Option.some.injEq, decide_eq_true_eq]
  rw [lt_getLastStateChange_dedup]
  constructor
  · rintro (h | ⟨x, hx, hlt⟩)
    · exact Or.inl h
    · obtain ⟨sm, hsm, rfl⟩ := List.mem_map.mp hx
      exact Or.inr ⟨sm, hsm, hlt⟩
  · rintro (h | ⟨sm, hsm, hlt⟩)
    · exact Or.inl h
    · exact Or.inr ⟨sm.nspace.name, List.mem_map.mpr ⟨sm, hsm, rfl⟩, hlt⟩

/-- C2 (amended): when the registry refresh succeeds and the machine has a
recorded last-successful-update `t`, `isOutdated` returns `some true` iff `t`
is strictly before the most recent change-event timestamp across the
machine's own tenant and the tenants of its shared peers; when the
last-successful-update is unset the check panics (`none`) instead of
reporting stale; when the refresh fails it reports stale unconditionally. -/
theorem isOutdated_characterization (m : Machine) (shared : List Machine)
    (lc : String → Int) :
    (∀ t, m.lastSuccessfulUpdate = some t →
      (isOutdated (.ok m) (.ok shared) lc = some true ↔
        t < lc m.nspace.name ∨ ∃ sm ∈ shared, t < lc sm.nspace.name)) ∧
    (m.lastSuccessfulUpdate = none →
      isOutdated (.ok m) (.ok shared) lc = none) ∧
    (∀ e : Unit, isOutdated (.error e) (.ok shared) lc = some true) := by
  refine ⟨fun t ht => isOutdated_ok_some_iff m shared lc t ht, fun ht => ?_,
    fun e => rfl⟩
  simp [isOutdated, ht]

/-- Witness for C2's amended theorem: a machine last updated at 5 with a
change event at 10 in its own tenant is reported stale. -/
theorem isOutdated_characterization_witness :
    isOutdated (.ok { sampleMachine with lastSuccessfulUpdate := some 5 })
      (.ok []) (fun _ => 10) = some true :=
  ((isOutdated_characterization
      { sampleMachine with lastSuccessfulUpdate := some 5 } [] (fun _ => 10)).1
    5 rfl).mpr (Or.inl (by decide))

/-- C2 counterexample: the claim says the check returns true (and must not
crash) when `LastSuccessfulUpdate` is unset; the code dereferences the nil
pointer there, i.e. the model returns `none` (panic), not `some true`. -/
theorem isOutdated_nil_update_counterexample :
    sampleMachine.lastSuccessfulUpdate = none ∧
    isOutdated (.ok sampleMachine) (.ok []) (fun _ => 0) = none ∧
    isOutdated (.ok sampleMachine) (.ok []) (fun _ => 0) ≠ some true :=
  ⟨rfl, rfl, by decide⟩

/-- C9: a `getShared` failure inside `isOutdated` is silently discarded: the
result is identical to the no-shared-peers run, and staleness is then decided
by the machine's own tenant's change events alone, not conservatively true. -/
theorem isOutdated_shared_error_dropped (m : Machine) (lc : String → Int) :
    (∀ e : Unit, isOutdated (.ok m) (.error e) lc =
      isOutdated (.ok m) (.ok []) lc) ∧
    (∀ e : Unit, ∀ t, m.lastSuccessfulUpdate = some t →
      (isOutdated (.ok m) (.error e) lc = some true ↔ t < lc m.nspace.name)) := by
  refine ⟨fun e => rfl, fun e t ht => ?_⟩
  have h := isOutdated_ok_some_iff m [] lc t ht
  simp only [List.mem_nil_iff, false_and, exists_false, or_false] at h
  exact h

/-- Witness for C9: with a failing shared fetch, a machine updated at 20
against a change event at 10 is reported fresh, not conservatively stale. -/
theorem isOutdated_shared_error_dropped_witness :
    (isOutdated (.ok { sampleMachine with lastSuccessfulUpdate := some 20 })
        (.error ()) (fun _ => 10) =
      isOutdated (.ok { sampleMachine with lastSuccessfulUpdate := some 20 })
        (.ok []) (fun _ => 10)) ∧
    (isOutdated (.ok { sampleMachine with lastSuccessfulUpdate := some 20 })
        (.error ()) (fun _ => 10) = some true ↔ (20 : Int) < 10) :=
  ⟨(isOutdated_shared_error_dropped
      { sampleMachine with lastSuccessfulUpdate := some 20 } (fun _ => 10)).1 (),
    (isOutdated_shared_error_dropped
      { sampleMachine with lastSuccessfulUpdate := some 20 } (fun _ => 10)).2 () 20 rfl⟩

/-- Lookup errors of `GetMachine`: a store failure from listing the
namespace, or the "machine not found" error of machine.go:251. -/
inductive LookupError where
  | store : LookupError
  | notFound : LookupError
deriving DecidableEq, Repr

/-- `GetMachine` (machine.go:239-252): iterates the tenant's machine list
(the result of the `ListMachinesInNamespace` collaborator, passed as
`listResult`) and returns the first exact name match, else the
`machine not found` error. -/
def GetMachine (listResult : Except Unit (List Machine)) (name : String) :
    Except LookupError Machine :=
  match listResult with
  | .error _ => .error .store
  | .ok machines =>
    match machines.find? (fun m => m.name == name) with
    | some m => .ok m
    | none => .error .notFound

/-- C8: for an existing tenant (listing succeeds) whose machines all bear a
different name, `GetMachine` returns the not-found error: it neither panics
nor returns a machine. -/
theorem GetMachine_absent_notFound (ms : List Machine) (nm : String)
    (h : ∀ x ∈ ms, x.name ≠ nm) :
    GetMachine (.ok ms) nm = .error .notFound := by
  have hfind : ms.find? (fun m => m.name == nm) = none := by
    rw [List.find?_eq_none]
    intro x hx
    simp [h x hx]
  simp [GetMachine, hfind]

/-- Witness for C8: the name `gamma` is absent from a one-machine tenant. -/
theorem GetMachine_absent_notFound_witness :
    GetMachine (.ok [sampleMachine]) "gamma" = .error .notFound :=
  GetMachine_absent_notFound [sampleMachine] "gamma" (by decide)

/-- `GetHostInfo` (machine.go:317-331): an empty blob decodes to the zero
`Hostinfo`; a malformed blob fails. -/
def Machine.GetHostInfo (m : Machine) : Option Hostinfo :=
  match m.hostInfo with
  | .empty => some ⟨none, []⟩
  | .ok h => some h
  | .bad => none

/-- `GetAdvertisedRoutes` (machine.go:656-663): the `RoutableIPs` of the
decoded host info. -/
def Machine.GetAdvertisedRoutes (m : Machine) : Option (List Cidr) :=
  m.GetHostInfo.map (fun h => h.routableIPs)

/-- Modelled from the spec: `containsIpPrefix` lives in `utils.go`, which is
not part of `src/`; spec section 4.6 says each candidate "must be a member of
`m`'s currently advertised routes", so it is list membership. -/
def containsIpCidr (routes : List Cidr) (route : Cidr) : Bool :=
  decide (route ∈ routes)

/-- The parse loop of `EnableRoutes` (machine.go:712-720): parse each
candidate in order, stopping at the first failure (returning the offending
string); `pc` is the external `netaddr.ParseIPPrefix`. -/
def parseRoutes (pc : String → Option Cidr) :
    List String → Except String (List Cidr)
  | [] => .ok []
  | s :: rest =>
    match pc s with
    | none => .error s
    | some r =>
      match parseRoutes pc rest with
      | .error e => .error e
      | .ok rs => .ok (r :: rs)

/-- Errors of `EnableRoutes` (machine.go:711-751). -/
inductive EnableError where
  | invalidRoute (routeStr : String)
  | hostInfoDecodeFailure
  | routeNotAdvertised (route : Cidr)
  | notifyFailure
deriving DecidableEq, Repr

/-- Outcome of an `EnableRoutes` call: the returned error (if any), the
machine afterwards, whether `h.db.Save` ran, and whether
`h.RequestMapUpdates` was invoked. -/
structure EnableOutcome where
  result : Except EnableError Unit
  machine : Machine
  saved : Bool
  signaled : Bool
deriving Repr

/-- `EnableRoutes` (machine.go:711-751): parse all candidates, fetch the
advertised routes, reject any candidate not advertised, then store the new
route set (the `json.Marshal` of a prefix list is modelled as always
succeeding), save, and request map updates (`notify` is that collaborator's
result; its failure is returned after the save has happened). -/
def EnableRoutes (pc : String → Option Cidr) (notify : Except Unit Unit)
    (m : Machine) (routeStrs : List String) : EnableOutcome :=
  match parseRoutes pc routeStrs with
  | .error s => ⟨.error (.invalidRoute s), m, false, false⟩
  | .ok newRoutes =>
    match m.GetAdvertisedRoutes with
    | none => ⟨.error .hostInfoDecodeFailure, m, false, false⟩
    | some availableRoutes =>
      match newRoutes.find? (fun r => !containsIpCidr availableRoutes r) with
      | some r => ⟨.error (.routeNotAdvertised r), m, false, false⟩
      | none =>
        let m2 := { m with enabledRoutes := .ok newRoutes }
        match notify with
        | .error _ => ⟨.error .notifyFailure, m2, true, true⟩
        | .ok _ => ⟨.ok (), m2, true, true⟩

theorem parseRoutes_error_of_bad (pc : String → Option Cidr) :
    ∀ strs : List String, (∃ s ∈ strs, pc s = none) →
      ∃ s2, parseRoutes pc strs = .error s2 := by
  intro strs
  induction strs with
  | nil =>
    rintro ⟨s, hs, _⟩
    cases hs
  | cons a rest ih =>
    rintro ⟨s, hs, hnone⟩
    rcases List.mem_cons.mp hs with rfl | hmem
    · exact ⟨s, by simp [parseRoutes, hnone]⟩
    · cases hpc : pc a with
      | none => exact ⟨a, by simp [parseRoutes, hpc]⟩
      | some r =>
        obtain ⟨s2, hs2⟩ := ih ⟨s, hmem, hnone⟩
        exact ⟨s2, by simp [parseRoutes, hpc, hs2]⟩

theorem parseRoutes_mem (pc : String → Option Cidr) :
    ∀ (strs : List String) (rs : List Cidr), parseRoutes pc strs = .ok rs →
      ∀ s ∈ strs, ∀ r, pc s = some r → r ∈ rs := by
  intro strs
  induction strs with
  | nil =>
    intro rs _ s hs
    cases hs
  | cons a rest ih =>
    intro rs h s hs r hr
    simp only [parseRoutes] at h
    cases hpc : pc a with
    | none =>
      rw [hpc] at h
      cases h
    | some r0 =>
      rw [hpc] at h
      cases hrest : parseRoutes pc rest with
      | error e =>
        rw [hrest] at h
        cases h
      | ok rs0 =>
        rw [hrest] at h
        injection h with h
        subst h
        rcases List.mem_cons.mp hs with rfl | hmem
        · rw [hpc] at hr
          injection hr with hr
          subst hr
          exact List.mem_cons_self _ _
        · exact List.mem_cons_of_mem _ (ih rs0 hrest s hmem r hr)

/-- C4: if some candidate fails to parse, or some parsed candidate is not
among the advertised routes, `EnableRoutes` returns an error, the machine is
unchanged, nothing is saved, and no map update is requested. -/
theorem EnableRoutes_failure_atomic (pc : String → Option Cidr)
    (notify : Except Unit Unit) (m : Machine) (routeStrs : List String)
    (h : (∃ s ∈ routeStrs, pc s = none) ∨
      (∃ adv, m.GetAdvertisedRoutes = some adv ∧
        ∃ s ∈ routeStrs, ∃ r, pc s = some r ∧ r ∉ adv)) :
    (∃ e, (EnableRoutes pc notify m routeStrs).result = .error e) ∧
    (EnableRoutes pc notify m routeStrs).machine = m ∧
    (EnableRoutes pc notify m routeStrs).saved = false ∧
    (EnableRoutes pc notify m routeStrs).signaled = false := by
  rcases h with hbad | ⟨adv, hadv, s, hs, r, hr, hnotin⟩
  · obtain ⟨s2, hs2⟩ := parseRoutes_error_of_bad pc routeStrs hbad
    exact ⟨⟨.invalidRoute s2, by simp [EnableRoutes, hs2]⟩,
      by simp [EnableRoutes, hs2], by simp [EnableRoutes, hs2],
      by simp [EnableRoutes, hs2]⟩
  · cases hp : parseRoutes pc routeStrs with
    | error s2 =>
      exact ⟨⟨.invalidRoute s2, by simp [EnableRoutes, hp]⟩,
        by simp [EnableRoutes, hp], by simp [EnableRoutes, hp],
        by simp [EnableRoutes, hp]⟩
    | ok rs =>
      have hrmem : r ∈ rs := parseRoutes_mem pc routeStrs rs hp s hs r hr
      obtain ⟨r2, hr2⟩ :
          ∃ r2, rs.find? (fun x => !containsIpCidr adv x) = some r2 := by
        cases hf : rs.find? (fun x => !containsIpCidr adv x) with
        | some r2 => exact ⟨r2, rfl⟩
        | none =>
          exfalso
          have := List.find?_eq_none.mp hf r hrmem
          simp [containsIpCidr, hnotin] at this
      exact ⟨⟨.routeNotAdvertised r2, by simp [EnableRoutes, hp, hadv, hr2]⟩,
        by simp [EnableRoutes, hp, hadv, hr2],
        by simp [EnableRoutes, hp, hadv, hr2],
        by simp [EnableRoutes, hp, hadv, hr2]⟩

/-- Witness for C4: a single unparseable candidate leaves everything as is. -/
theorem EnableRoutes_failure_atomic_witness :
    (∃ e, (EnableRoutes (fun _ => none) (.ok ()) sampleMachine ["x"]).result =
      .error e) ∧
    (EnableRoutes (fun _ => none) (.ok ()) sampleMachine ["x"]).machine =
      sampleMachine ∧
    (EnableRoutes (fun _ => none) (.ok ()) sampleMachine ["x"]).saved = false ∧
    (EnableRoutes (fun _ => none) (.ok ()) sampleMachine ["x"]).signaled =
      false :=
  EnableRoutes_failure_atomic (fun _ => none) (.ok ()) sampleMachine ["x"]
    (Or.inl ⟨"x", List.mem_cons_self _ _, rfl⟩)

theorem EnableRoutes_success_core (pc : String → Option Cidr)
    (notify : Except Unit Unit) (m : Machine) (strs : List String)
    (h : (EnableRoutes pc notify m strs).result = .ok ()) :
    ∃ rs, parseRoutes pc strs = .ok rs ∧
      EnableRoutes pc notify m strs =
        ⟨.ok (), { m with enabledRoutes := .ok rs }, true, true⟩ := by
  cases hp : parseRoutes pc strs with
  | error s => simp [EnableRoutes, hp] at h
  | ok rs =>
    refine ⟨rs, rfl, ?_⟩
    cases hadv : m.GetAdvertisedRoutes with
    | none => simp [EnableRoutes, hp, hadv] at h
    | some adv =>
      cases hf : rs.find? (fun x => !containsIpCidr adv x) with
      | some r => simp [EnableRoutes, hp, hadv, hf] at h
      | none =>
        cases notify with
        | error e => simp [EnableRoutes, hp, hadv, hf] at h
        | ok u =>
          cases u
          simp [EnableRoutes, hp, hadv, hf]

/-- C5: a successful `EnableRoutes` stores exactly the parsed candidate set
as the enabled routes (replacing, not merging with, whatever was enabled
before), saves the machine and signals the map-update mechanism; and a
second successful call on the result again leaves exactly the second
candidate set enabled. -/
theorem EnableRoutes_success_replaces (pc : String → Option Cidr)
    (notify : Except Unit Unit) (m : Machine) (strs : List String)
    (h : (EnableRoutes pc notify m strs).result = .ok ()) :
    ∃ rs, parseRoutes pc strs = .ok rs ∧
      (EnableRoutes pc notify m strs).machine =
        { m with enabledRoutes := .ok rs } ∧
      (EnableRoutes pc notify m strs).saved = true ∧
      (EnableRoutes pc notify m strs).signaled = true ∧
      ∀ strs2 rs2, parseRoutes pc strs2 = .ok rs2 →
        (EnableRoutes pc notify ((EnableRoutes pc notify m strs).machine)
          strs2).result = .ok () →
        (EnableRoutes pc notify ((EnableRoutes pc notify m strs).machine)
          strs2).machine.enabledRoutes = .ok rs2 := by
  obtain ⟨rs, hp, hout⟩ := EnableRoutes_success_core pc notify m strs h
  refine ⟨rs, hp, by rw [hout], by rw [hout], by rw [hout], ?_⟩
  intro strs2 rs2 hp2 h2
  obtain ⟨rs2x, hp2x, hout2⟩ := EnableRoutes_success_core pc notify _ strs2 h2
  rw [hp2] at hp2x
  injection hp2x with heq
  subst heq
  rw [hout2]

/-- A machine advertising the route `10.0.0.0/8` in its host metadata. -/
def sampleAdvMachine : Machine :=
  { sampleMachine with hostInfo := .ok ⟨none, [⟨10, 8⟩]⟩ }

/-- A concrete stand-in for `netaddr.ParseIPPrefix` accepting one route. -/
def samplePC : String → Option Cidr :=
  fun s => if s = "10.0.0.0/8" then some ⟨10, 8⟩ else none

/-- Witness for C5: enabling the advertised route stores exactly it. -/
theorem EnableRoutes_success_replaces_witness :
    (EnableRoutes samplePC (.ok ()) sampleAdvMachine
      ["10.0.0.0/8"]).machine.enabledRoutes = .ok [⟨10, 8⟩] := by
  obtain ⟨rs, hp, hmach, _⟩ := EnableRoutes_success_replaces samplePC (.ok ())
    sampleAdvMachine ["10.0.0.0/8"] rfl
  have hrs : rs = [⟨10, 8⟩] := by
    have h2 : (Except.ok [(⟨10, 8⟩ : Cidr)] : Except String (List Cidr)) =
        .ok rs := by rw [← hp]; rfl
    injection h2 with h2
    exact h2.symm
  subst hrs
  rw [hmach]

/-- The one field of `tailcfg.DNSConfig` that `toNode` reads. -/
structure DNSConfig where
  proxied : Bool
deriving DecidableEq, Repr

/-- `tailcfg.CapabilityFileSharing`. -/
def capabilityFileSharing : String := "https://tailscale.com/cap/file-sharing"

/-- The `tailcfg.Node` fields populated by `toNode` (machine.go:523-546).
Keys are modelled as the `Nat` produced by the `wgkey.ParseHex` parameter. -/
structure Node where
  id : Nat
  stableID : String
  name : String
  user : Nat
  key : Nat
  keyExpiry : Int
  machineKey : Nat
  discoKey : Nat
  addresses : List Cidr
  allowedIPs : List Cidr
  endpoints : List String
  derp : String
  hostinfo : Hostinfo
  created : Int
  lastSeen : Option Int
  keepAlive : Bool
  machineAuthorized : Bool
  capabilities : List String
deriving DecidableEq, Repr

/-- The disco-key step of `toNode` (machine.go:427-436): parse when
non-empty, else the zero-value key. -/
def discoKeyOf (parseHex : String → Option Nat) (m : Machine) : Option Nat :=
  if m.discoKey ≠ "" then parseHex m.discoKey else some 0

/-- The enabled-routes step of `toNode` (machine.go:456-476): decode the
stored route list when `includeRoutes`, the empty blob giving `[]`; a
malformed blob or an unparseable stored route fails. -/
def decodeRoutes (includeRoutes : Bool) (m : Machine) : Option (List Cidr) :=
  if includeRoutes then
    match m.enabledRoutes with
    | .empty => some []
    | .ok rs => some rs
    | .bad => none
  else some []

/-- The endpoints step of `toNode` (machine.go:478-488): decode the stored
endpoint list, the empty blob giving `[]`. -/
def decodeEndpoints (m : Machine) : Option (List String) :=
  match m.endpoints with
  | .empty => some []
  | .ok es => some es
  | .bad => none

/-- `toNode` (machine.go:413-549). `parseHex` is the external
`wgkey.ParseHex`; `pc` is `netaddr.ParseIPPrefix`, applied to the machine's
IP suffixed with `/32`. Since `Option` has a single failure value, the
sequential early returns of the Go code are equivalent to this simultaneous
match on every fallible step. -/
def toNode (parseHex : String → Option Nat) (pc : String → Option Cidr)
    (baseDomain : String) (dnsConfig : Option DNSConfig) (includeRoutes : Bool)
    (m : Machine) : Option Node :=
  match parseHex m.nodeKey, parseHex m.machineKey, discoKeyOf parseHex m,
      pc (m.ipAddress ++ "/32"), decodeRoutes includeRoutes m,
      decodeEndpoints m, m.GetHostInfo with
  | some nKey, some mKey, some dKey, some ip, some routes, some eps,
      some hostinfo =>
    let derp := match hostinfo.netInfo with
      | some ni => "127.3.3.40:" ++ toString ni.preferredDERP
      | none => "127.3.3.40:0"
    let hostname := match dnsConfig with
      | some d =>
        if d.proxied then
          m.name ++ "." ++ m.nspace.name ++ "." ++ baseDomain
        else m.name
      | none => m.name
    some {
      id := m.id
      stableID := toString m.id
      name := hostname
      user := m.namespaceID
      key := nKey
      keyExpiry := m.expiry.getD 0
      machineKey := mKey
      discoKey := dKey
      addresses := [ip]
      allowedIPs := [ip] ++ routes
      endpoints := eps
      derp := derp
      hostinfo := hostinfo
      created := m.createdAt
      lastSeen := m.lastSeen
      keepAlive := true
      machineAuthorized := m.registered
      capabilities := [capabilityFileSharing] }
  | _, _, _, _, _, _, _ => none

theorem toNode_ok_derp (parseHex : String → Option Nat)
    (pc : String → Option Cidr) (baseDomain : String)
    (dnsConfig : Option DNSConfig) (includeRoutes : Bool) (m : Machine)
    (n : Node)
    (h : toNode parseHex pc baseDomain dnsConfig includeRoutes m = some n) :
    ∃ hi, m.GetHostInfo = some hi ∧
      n.derp = (match hi.netInfo with
        | some ni => "127.3.3.40:" ++ toString ni.preferredDERP
        | none => "127.3.3.40:0") := by
  cases h1 : parseHex m.nodeKey with
  | none => simp [toNode, h1] at h
  | some nKey =>
    cases h2 : parseHex m.machineKey with
    | none => simp [toNode, h1, h2] at h
    | some mKey =>
      cases h3 : discoKeyOf parseHex m with
      | none => simp [toNode, h1, h2, h3] at h
      | some dKey =>
        cases h4 : pc (m.ipAddress ++ "/32") with
        | none => simp [toNode, h1, h2, h3, h4] at h
        | some ip =>
          cases h5 : decodeRoutes includeRoutes m with
          | none => simp [toNode, h1, h2, h3, h4, h5] at h
          | some routes =>
            cases h6 : decodeEndpoints m with
            | none => simp [toNode, h1, h2, h3, h4, h5, h6] at h
            | some eps =>
              cases h7 : m.GetHostInfo with
              | none => simp [toNode, h1, h2, h3, h4, h5, h6, h7] at h
              | some hostinfo =>
                refine ⟨hostinfo, rfl, ?_⟩
                simp only [toNode, h1, h2, h3, h4, h5, h6, h7,
                  Option.some.injEq] at h
                subst h
                rfl

/-- C7: on a successful node translation, host metadata with network info
carrying preferred relay `d` yields the relay hint `127.3.3.40:<d>`, and
host metadata without network info (present without it, or absent entirely)
yields exactly `127.3.3.40:0`. -/
theorem toNode_relay_hint (parseHex : String → Option Nat)
    (pc : String → Option Cidr) (baseDomain : String)
    (dnsConfig : Option DNSConfig) (includeRoutes : Bool) (m : Machine)
    (n : Node)
    (h : toNode parseHex pc baseDomain dnsConfig includeRoutes m = some n) :
    (∀ hi ni, m.hostInfo = .ok hi → hi.netInfo = some ni →
      n.derp = "127.3.3.40:" ++ toString ni.preferredDERP) ∧
    (∀ hi, m.hostInfo = .ok hi → hi.netInfo = none →
      n.derp = "127.3.3.40:0") ∧
    (m.hostInfo = .empty → n.derp = "127.3.3.40:0") := by
  obtain ⟨hi0, hhi0, hderp⟩ :=
    toNode_ok_derp parseHex pc baseDomain dnsConfig includeRoutes m n h
  refine ⟨fun hi ni hok hni => ?_, fun hi hok hni => ?_, fun hemp => ?_⟩
  · have hg : m.GetHostInfo = some hi := by simp [Machine.GetHostInfo, hok]
    rw [hg] at hhi0
    injection hhi0 with hhi0
    subst hhi0
    simp only [hni] at hderp
    exact hderp
  · have hg : m.GetHostInfo = some hi := by simp [Machine.GetHostInfo, hok]
    rw [hg] at hhi0
    injection hhi0 with hhi0
    subst hhi0
    simp only [hni] at hderp
    exact hderp
  · have hg : m.GetHostInfo = some ⟨none, []⟩ := by
      simp [Machine.GetHostInfo, hemp]
    rw [hg] at hhi0
    injection hhi0 with hhi0
    subst hhi0
    exact hderp

/-- The node produced by `toNode` on `sampleMachine` carrying network info
with preferred relay 7, under the trivial key/prefix parsers. -/
def sampleNode : Node where
  id := 1
  stableID := "1"
  name := "alpha"
  user := 1
  key := 0
  keyExpiry := 0
  machineKey := 0
  discoKey := 0
  addresses := [⟨1, 32⟩]
  allowedIPs := [⟨1, 32⟩]
  endpoints := []
  derp := "127.3.3.40:7"
  hostinfo := ⟨some ⟨7⟩, []⟩
  created := 0
  lastSeen := none
  keepAlive := true
  machineAuthorized := true
  capabilities := [capabilityFileSharing]

/-- Witness for C7: a machine preferring relay 7 translates with relay hint
`127.3.3.40:7`. -/
theorem toNode_relay_hint_witness : sampleNode.derp = "127.3.3.40:7" :=
  (toNode_relay_hint (fun _ => some 0) (fun _ => some ⟨1, 32⟩) "example.com"
      none false { sampleMachine with hostInfo := .ok ⟨some ⟨7⟩, []⟩ }
      sampleNode (by decide)).1 ⟨some ⟨7⟩, []⟩ ⟨7⟩ rfl rfl

/-- Witness for C10 at a machine with both pointers unset. -/
theorem expiry_ops_partiality_witness :
    (sampleMachine.isExpired 0 = none ↔ sampleMachine.expiry = none) ∧
    (updateMachineExpiry ⟨100, 10⟩ 0 sampleMachine = none ↔
      sampleMachine.expiry = none ∨
        ∃ e, sampleMachine.expiry = some e ∧ e < 0 ∧
          sampleMachine.requestedExpiry = none) :=
  expiry_ops_partiality ⟨100, 10⟩ 0 sampleMachine
